import Mathlib

set_option maxRecDepth 100000

attribute [local semireducible] Rat.add

/-!
Verification of the M17 protocol engine of this repository against its
natural-language specification.

The Python source is shallowly embedded:
* `bytes` values are `List Nat` (each entry a byte value 0..255);
* `str` values are `List Nat` (Unicode code points);
* raised exceptions are `Except PyErr`;
* machine integers are `Nat` / `Int` (Python integers are unbounded);
* `time.time()` is passed explicitly as a rational `now` parameter;
* single-field mutation is explicit state passing.

Each definition mirrors the function of the same name in
`m17_crc.py`, `m17_lsf.py`, `m17_control.py`, `modem.py` and
`mmdvm_host.py`; deviations forced by the embedding are noted next to
the definition they concern.
-/

/-- Python exception kinds raised by the embedded code.  `nameError`
stands for the `NameError` that CPython raises where `m17_lsf.py`
references `StreamDecodeError` / `StreamEncodeError` without importing
them from `m17_errors.py`. -/
inductive PyErr where
  | typeError
  | valueError
  | crcError
  | lsfDecodeError
  | lsfEncodeError
  | fragmentError
  | nameError
  | unicodeEncodeError
deriving DecidableEq, Repr

deriving instance DecidableEq for Except

/-- Python slice `data[a:b]` for `0 ≤ a ≤ b` (clamping to the length,
as Python slicing does). -/
def pySlice (l : List Nat) (a b : Nat) : List Nat :=
  (l.drop a).take (b - a)

/-- Python `bytes.ljust(n, pad)`. -/
def pyLjust (l : List Nat) (n : Nat) (pad : Nat) : List Nat :=
  l ++ List.replicate (n - l.length) pad

/-- Python `int.from_bytes(l, 'big')`. -/
def fromBytesBE (l : List Nat) : Nat :=
  l.foldl (fun a b => a * 256 + b) 0

/-- Python `n.to_bytes(2, 'big')`.  Every call site first bounds
`n ≤ 0xFFFF` (Python raises `OverflowError` otherwise, which is
unreachable in the embedded code). -/
def toBytesBE2 (n : Nat) : List Nat :=
  [n / 256, n % 256]

/-- One reflected CRC-32 bit step (polynomial `0xEDB88320`), as in the
`zlib.crc32` algorithm used by `m17_crc.py`. -/
def crc32Bit (c : Nat) : Nat :=
  if c % 2 = 1 then (c / 2) ^^^ 0xEDB88320 else c / 2

/-- CRC-32 update for one input byte (eight bit steps). -/
def crc32Byte (c b : Nat) : Nat :=
  crc32Bit^[8] (c ^^^ b)

/-- `zlib.crc32(data)`: init `0xFFFFFFFF`, reflected polynomial
`0xEDB88320`, final xor `0xFFFFFFFF`. -/
def crc32 (data : List Nat) : Nat :=
  data.foldl crc32Byte 0xFFFFFFFF ^^^ 0xFFFFFFFF

/-- Standard check vector of the CRC-32 algorithm: the digest of the
ASCII string `123456789` is `0xCBF43926` (pins the embedding to the
`zlib.crc32` semantics the source relies on). -/
theorem crc32_check_vector :
    crc32 [0x31, 0x32, 0x33, 0x34, 0x35, 0x36, 0x37, 0x38, 0x39] = 0xCBF43926 := by
  decide

/-- `m17_crc.create_crc16`: the low 16 bits of the CRC-32 digest;
rejects empty input with `ValueError`.  (The `isinstance` check cannot
fail in the embedding, where the argument is always a byte string.) -/
def create_crc16 (data : List Nat) : Except PyErr Nat :=
  if data.isEmpty then .error .valueError
  else .ok (crc32 data &&& 0xFFFF)

/-- `m17_crc.check_crc16`: compares `create_crc16(data[:-2])` with the
trailing two bytes read big-endian; rejects inputs shorter than 3. -/
def check_crc16 (data : List Nat) : Except PyErr Bool :=
  if data.length < 3 then .error .valueError
  else
    match create_crc16 (data.take (data.length - 2)) with
    | .error _ => .error .crcError
    | .ok c => .ok (c == fromBytesBE (data.drop (data.length - 2)))

/-- `m17_crc.encode_crc16`: appends the 2-byte big-endian CRC, then
re-verifies the result (as the source does). -/
def encode_crc16 (data : List Nat) : Except PyErr (List Nat) :=
  match create_crc16 data with
  | .error e => .error e
  | .ok crc =>
    let result := data ++ toBytesBE2 crc
    match check_crc16 result with
    | .error e => .error e
    | .ok true => .ok result
    | .ok false => .error .crcError

namespace M17Config

/-- `M17Config` constants from `m17_config.py`. -/
def FRAME_LENGTH_BYTES : Nat := 48

def SYNC_LENGTH_BYTES : Nat := 2

def LSF_LENGTH_BYTES : Nat := 30

def LSF_FRAGMENT_LENGTH_BYTES : Nat := 5

def PAYLOAD_LENGTH_BYTES : Nat := 16

def CRC_LENGTH_BYTES : Nat := 2

def MAX_CALLSIGN_LENGTH : Nat := 6

def MIN_FRAME_LENGTH : Nat := SYNC_LENGTH_BYTES + 4

def MAX_FRAME_LENGTH : Nat := FRAME_LENGTH_BYTES

def NUM_LICH_FRAGMENTS : Nat := 6

def LINK_SETUP_SYNC : List Nat := [0x55, 0xF7]

def STREAM_SYNC : List Nat := [0xFF, 0x5D]

def EOT_SYNC : List Nat := [0x55, 0x5D]

def NULL_NONCE : List Nat := List.replicate 14 0

end M17Config

/-- Python `str.encode('ascii')` on a string given as code points:
succeeds iff every code point is below 128. -/
def pyEncodeAscii (s : List Nat) : Except PyErr (List Nat) :=
  if s.all (· < 128) then .ok s else .error .unicodeEncodeError

/-- Python `bytes.rstrip(b'\x00')`: remove trailing zero bytes. -/
def rstripZeros (l : List Nat) : List Nat :=
  ((l.reverse).dropWhile (· == 0)).reverse

/-- Python `str.isspace` on the code points that can remain after an
ASCII decode (9..13, 28..31 and 32). -/
def pyIsSpace (c : Nat) : Bool :=
  (c == 9) || (c == 10) || (c == 11) || (c == 12) || (c == 13) ||
  (c == 28) || (c == 29) || (c == 30) || (c == 31) || (c == 32)

/-- Python `str.strip()`: remove leading and trailing whitespace. -/
def pyStrip (l : List Nat) : List Nat :=
  ((l.dropWhile pyIsSpace).reverse.dropWhile pyIsSpace).reverse

/-- `PacketType` of `m17_defines.py`. -/
inductive PacketType where
  | PACKET
  | STREAM
deriving DecidableEq, Repr

def PacketType.val : PacketType → Nat
  | .PACKET => 0
  | .STREAM => 1

/-- `PacketType(n)` enum lookup; unknown values raise `ValueError`. -/
def PacketType.ofVal : Nat → Except PyErr PacketType
  | 0 => .ok .PACKET
  | 1 => .ok .STREAM
  | _ => .error .valueError

/-- `DataType` of `m17_defines.py`. -/
inductive DataType where
  | DATA
  | VOICE
  | VOICE_DATA
deriving DecidableEq, Repr

def DataType.val : DataType → Nat
  | .DATA => 1
  | .VOICE => 2
  | .VOICE_DATA => 3

def DataType.ofVal : Nat → Except PyErr DataType
  | 1 => .ok .DATA
  | 2 => .ok .VOICE
  | 3 => .ok .VOICE_DATA
  | _ => .error .valueError

/-- `EncryptionType` of `m17_defines.py`. -/
inductive EncryptionType where
  | NONE
  | AES
  | SCRAMBLE
deriving DecidableEq, Repr

def EncryptionType.val : EncryptionType → Nat
  | .NONE => 0
  | .AES => 1
  | .SCRAMBLE => 2

def EncryptionType.ofVal : Nat → Except PyErr EncryptionType
  | 0 => .ok .NONE
  | 1 => .ok .AES
  | 2 => .ok .SCRAMBLE
  | _ => .error .valueError

/-- `EncryptionSubType` of `m17_defines.py`. -/
inductive EncryptionSubType where
  | TEXT
  | GPS
  | CALLSIGNS
deriving DecidableEq, Repr

def EncryptionSubType.val : EncryptionSubType → Nat
  | .TEXT => 0
  | .GPS => 1
  | .CALLSIGNS => 2

def EncryptionSubType.ofVal : Nat → Except PyErr EncryptionSubType
  | 0 => .ok .TEXT
  | 1 => .ok .GPS
  | 2 => .ok .CALLSIGNS
  | _ => .error .valueError

/-- The `LSF` dataclass of `m17_lsf.py`. -/
structure LSF where
  dst_callsign : List Nat
  src_callsign : List Nat
  can : Nat
  packet_type : PacketType
  data_type : DataType
  encryption_type : EncryptionType
  encryption_subtype : EncryptionSubType
  nonce : List Nat
deriving DecidableEq, Repr

namespace LSF

/-- `LSF._decode_callsign`: strip trailing zero bytes, decode as ASCII
dropping non-ASCII bytes (`errors='ignore'`), strip whitespace. -/
def decodeCallsign (data : List Nat) : List Nat :=
  pyStrip ((rstripZeros data).filter (· < 128))

/-- `LSF._encode_callsign`: ASCII-encode, truncate to 6 bytes,
zero-pad to 6 bytes. -/
def encodeCallsign (callsign : List Nat) : Except PyErr (List Nat) :=
  match pyEncodeAscii callsign with
  | .error e => .error e
  | .ok b => .ok (pyLjust (b.take 6) 6 0)

/-- `LSF.decode` from `m17_lsf.py`.  The dead `except` wrappers that
re-raise the same exception are omitted; each early `raise` becomes an
`Except.error`. -/
def decode (data : List Nat) : Except PyErr LSF :=
  if data.length < M17Config.LSF_LENGTH_BYTES then .error .valueError
  else
    match check_crc16 data with
    | .error _ => .error .lsfDecodeError
    | .ok ok_ =>
      if !ok_ then .error .lsfDecodeError
      else
        let dst := decodeCallsign (pySlice data 0 6)
        let src := decodeCallsign (pySlice data 6 12)
        let type_byte := data.getD 12 0
        match PacketType.ofVal (type_byte &&& 0x01),
              DataType.ofVal ((type_byte >>> 1) &&& 0x03),
              EncryptionType.ofVal ((type_byte >>> 3) &&& 0x03),
              EncryptionSubType.ofVal ((type_byte >>> 5) &&& 0x03) with
        | .ok packet_type, .ok data_type, .ok encryption_type, .ok encryption_subtype =>
          let can := fromBytesBE (pySlice data 13 15)
          let nonce := if data.length ≥ 29 then pySlice data 15 29 else M17Config.NULL_NONCE
          .ok ⟨dst, src, can, packet_type, data_type, encryption_type,
               encryption_subtype, nonce⟩
        | _, _, _, _ => .error .lsfDecodeError

/-- The packed type byte written by `LSF.encode`. -/
def typeByte (lsf : LSF) : Nat :=
  lsf.packet_type.val ||| (lsf.data_type.val <<< 1) |||
  (lsf.encryption_type.val <<< 3) ||| (lsf.encryption_subtype.val <<< 5)

/-- The field assembly performed by `LSF.encode` before padding:
destination, source, type byte, big-endian CAN, nonce (29 bytes for
6-byte callsign fields and a 14-byte nonce). -/
def fields (lsf : LSF) (d6 s6 : List Nat) : List Nat :=
  d6 ++ s6 ++ [typeByte lsf] ++ toBytesBE2 lsf.can ++ lsf.nonce

/-- `LSF.encode` from `m17_lsf.py`.  A `ValueError` raised by a
validation step is re-raised as `LSFEncodeError`; a
`UnicodeEncodeError` from the callsign encoding falls into the
`except Exception` clause, also yielding `LSFEncodeError`.  The lower
bound `0 <= can` of the source holds for every `Nat`. -/
def encode (lsf : LSF) : Except PyErr (List Nat) :=
  if lsf.dst_callsign.isEmpty || decide (M17Config.MAX_CALLSIGN_LENGTH < lsf.dst_callsign.length) then
    .error .lsfEncodeError
  else if lsf.src_callsign.isEmpty || decide (M17Config.MAX_CALLSIGN_LENGTH < lsf.src_callsign.length) then
    .error .lsfEncodeError
  else if 0xFFFF < lsf.can then .error .lsfEncodeError
  else if lsf.nonce.length ≠ M17Config.NULL_NONCE.length then .error .lsfEncodeError
  else
    match encodeCallsign lsf.dst_callsign, encodeCallsign lsf.src_callsign with
    | .ok d6, .ok s6 =>
      let frame := fields lsf d6 s6
      let frame2 := pyLjust frame (M17Config.LSF_LENGTH_BYTES - M17Config.CRC_LENGTH_BYTES) 0
      match encode_crc16 frame2 with
      | .ok r => .ok r
      | .error _ => .error .lsfEncodeError
    | _, _ => .error .lsfEncodeError

end LSF

/-- The `StreamFrame` dataclass of `m17_lsf.py`. -/
structure StreamFrame where
  frame_number : Nat
  payload : List Nat
  lich_fragment : Option (List Nat)
  is_last : Bool
deriving DecidableEq, Repr

namespace StreamFrame

/-- `StreamFrame.decode` from `m17_lsf.py`.  The CRC and sync failure
paths raise `StreamDecodeError`, a name the module never imports, so
CPython raises `NameError` there (modeled as `PyErr.nameError`). -/
def decode (data : List Nat) : Except PyErr StreamFrame :=
  if data.length < M17Config.MIN_FRAME_LENGTH then .error .valueError
  else if M17Config.MAX_FRAME_LENGTH < data.length then .error .valueError
  else
    match check_crc16 data with
    | .error _ => .error .nameError
    | .ok ok_ =>
      if !ok_ then .error .nameError
      else if pySlice data 0 M17Config.SYNC_LENGTH_BYTES ≠ M17Config.STREAM_SYNC then
        .error .nameError
      else
        let fn := fromBytesBE (pySlice data M17Config.SYNC_LENGTH_BYTES
          (M17Config.SYNC_LENGTH_BYTES + 2))
        let is_last := fn &&& 0x8000 ≠ 0
        let frame_number := fn &&& 0x7FFF
        let lich :=
          if frame_number < M17Config.NUM_LICH_FRAGMENTS then
            some (pySlice data (M17Config.SYNC_LENGTH_BYTES + 2)
              (M17Config.SYNC_LENGTH_BYTES + 6))
          else none
        let payload := pySlice data (M17Config.SYNC_LENGTH_BYTES + 6)
          (M17Config.FRAME_LENGTH_BYTES - M17Config.CRC_LENGTH_BYTES)
        .ok ⟨frame_number, payload, lich, is_last⟩

/-- `StreamFrame.encode` from `m17_lsf.py`.  Validation failures raise
`ValueError`, whose handler re-raises `StreamEncodeError` - an
unimported name, so CPython raises `NameError` (`PyErr.nameError`).
`self.lich_fragment or bytes(4)` substitutes four zero bytes when the
fragment is `None` or empty. -/
def encode (sf : StreamFrame) : Except PyErr (List Nat) :=
  if 0x7FFF < sf.frame_number then .error .nameError
  else if (match sf.lich_fragment with
           | some l => decide (l.length ≠ M17Config.LSF_FRAGMENT_LENGTH_BYTES)
           | none => false) then .error .nameError
  else if M17Config.PAYLOAD_LENGTH_BYTES < sf.payload.length then .error .nameError
  else
    let lichBytes :=
      match sf.lich_fragment with
      | none => List.replicate 4 0
      | some l => if l.isEmpty then List.replicate 4 0 else l
    let frame := M17Config.STREAM_SYNC ++
      toBytesBE2 (sf.frame_number ||| (if sf.is_last then 0x8000 else 0)) ++
      lichBytes ++ sf.payload
    let frame2 := pyLjust frame (M17Config.FRAME_LENGTH_BYTES - M17Config.CRC_LENGTH_BYTES) 0
    match encode_crc16 frame2 with
    | .ok r => .ok r
    | .error _ => .error .nameError

end StreamFrame

namespace LICHReassembler

/-- State of `LICHReassembler` from `m17_lsf.py`: the `_fragments`
list of six optional fragments.  (The lock only serializes access and
has no functional effect.) -/
abbrev State := List (Option (List Nat))

/-- `LICHReassembler.__init__` / `reset`: six empty slots. -/
def init : State := List.replicate M17Config.NUM_LICH_FRAGMENTS none

/-- `b''.join(self._fragments)`, evaluated only when every slot is
populated (so the `getD` default is never used). -/
def joinFragments (st : State) : List Nat :=
  (st.map (fun o => o.getD [])).flatten

/-- `LICHReassembler.add_fragment`: validate fragment length and
index (raising `ValueError` before any mutation), store the fragment
(overwriting), and when all six slots are populated decode the
concatenation - success returns the LSF, failure raises
`FragmentError` (with the slot already overwritten).  The result pairs
the returned value (or raised exception) with the new state. -/
def add_fragment (st : State) (fragment : List Nat) (index : Nat) :
    Except PyErr (Option LSF) × State :=
  if fragment.length ≠ M17Config.LSF_FRAGMENT_LENGTH_BYTES then (.error .valueError, st)
  else if ¬ index < M17Config.NUM_LICH_FRAGMENTS then (.error .valueError, st)
  else
    let st' := st.set index (some fragment)
    if st'.all Option.isSome then
      match LSF.decode (joinFragments st') with
      | .ok lsf => (.ok (some lsf), st')
      | .error _ => (.error .fragmentError, st')
    else (.ok none, st')

end LICHReassembler

/-- The two controller states of `m17_control.py` (`'NONE'` and
`'PROCESS'` strings in the source). -/
inductive CState where
  | NONE
  | PROCESS
deriving DecidableEq, Repr

/-- The `M17Control` dataclass of `m17_control.py`: configuration and
mutable state.  `network` models the optional `M17Network` through the
only observation the controller makes of it, `is_connected()`
(`some b` = a network whose `connected` flag is `b`; `none` = no
network).  The depth-1 `rf_data` / `net_data` queues are modeled by
handing the dequeued frame to the process functions directly. -/
structure M17Control where
  callsign : List Nat
  can : Nat
  self_only : Bool
  allow_encryption : Bool
  tx_hang : ℚ
  network : Option Bool
  rf_state : CState
  net_state : CState
  rf_timeout : ℚ
  net_timeout : ℚ
  rf_frames : Nat
  net_frames : Nat
  rf_bits : Nat
  net_bits : Nat
  rf_errs : Nat
  net_errs : Nat
  rf_last_frame : Nat
  net_last_frame : Nat
  tx_watchdog : Int
  rf_lich : LICHReassembler.State
  net_lich : LICHReassembler.State
deriving DecidableEq, Repr

namespace M17Control

/-- `self.network and self.network.is_connected()`. -/
def networkConnected (c : M17Control) : Bool :=
  c.network == some true

/-- `M17Control._handle_rf_link_setup`.  `LSF.decode` raises on
failure, so the `if not lsf` error branch of the source is dead code
(a dataclass instance is always truthy); an `LSFDecodeError` therefore
propagates out of the handler.  Returns the new controller state and
the list of byte strings written to the network. -/
def handle_rf_link_setup (c : M17Control) (now : ℚ) (data : List Nat) :
    Except PyErr (M17Control × List (List Nat)) :=
  if c.rf_state ≠ .NONE then .ok (c, [])
  else
    match LSF.decode (data.drop M17Config.SYNC_LENGTH_BYTES) with
    | .error e => .error e
    | .ok lsf =>
      if c.self_only ∧ lsf.dst_callsign ≠ c.callsign then .ok (c, [])
      else if lsf.encryption_type ≠ .NONE ∧ ¬ c.allow_encryption then .ok (c, [])
      else
        .ok ({ c with
                rf_state := .PROCESS
                rf_timeout := now + c.tx_hang
                rf_frames := 0
                rf_bits := 0
                rf_errs := 0
                rf_lich := LICHReassembler.init },
             if c.networkConnected then [data] else [])

/-- `M17Control._handle_rf_stream`.  `StreamFrame.decode` raises on
failure (its `if not frame` branch is dead), and a truthy (non-empty)
LICH fragment is fed to the reassembler, whose `ValueError` /
`FragmentError` propagates.  On success: counters updated, watchdog
re-armed, frame forwarded when the network is connected. -/
def handle_rf_stream (c : M17Control) (now : ℚ) (data : List Nat) :
    Except PyErr (M17Control × List (List Nat)) :=
  if c.rf_state ≠ .PROCESS then .ok (c, [])
  else
    match StreamFrame.decode data with
    | .error e => .error e
    | .ok frame =>
      let lichStep : Except PyErr LICHReassembler.State :=
        match frame.lich_fragment with
        | some l =>
          if l.isEmpty then .ok c.rf_lich
          else
            match LICHReassembler.add_fragment c.rf_lich l frame.frame_number with
            | (.error e, _) => .error e
            | (.ok _, st') => .ok st'
        | none => .ok c.rf_lich
      match lichStep with
      | .error e => .error e
      | .ok st' =>
        .ok ({ c with
                rf_lich := st'
                rf_frames := c.rf_frames + 1
                rf_bits := c.rf_bits + frame.payload.length * 8
                rf_last_frame := frame.frame_number
                rf_timeout := now + c.tx_hang },
             if c.networkConnected then [data] else [])

/-- `M17Control._handle_rf_eot`: log, return to `NONE`, reset the
reassembler, forward the EOT sync when the network is connected. -/
def handle_rf_eot (c : M17Control) : M17Control × List (List Nat) :=
  if c.rf_state ≠ .PROCESS then (c, [])
  else
    ({ c with rf_state := .NONE, rf_lich := LICHReassembler.init },
     if c.networkConnected then [M17Config.EOT_SYNC] else [])

/-- `M17Control._handle_rf_timeout`: warn, return to `NONE`, reset the
reassembler, forward the EOT sync when the network is connected. -/
def handle_rf_timeout (c : M17Control) : M17Control × List (List Nat) :=
  if c.rf_state ≠ .PROCESS then (c, [])
  else
    ({ c with rf_state := .NONE, rf_lich := LICHReassembler.init },
     if c.networkConnected then [M17Config.EOT_SYNC] else [])

/-- `M17Control._handle_net_timeout`: like the RF side but without
forwarding anything. -/
def handle_net_timeout (c : M17Control) : M17Control :=
  if c.net_state ≠ .PROCESS then c
  else { c with net_state := .NONE, net_lich := LICHReassembler.init }

/-- `M17Control.clock`: expire the RF and network watchdog deadlines
against `now = time.time()`, then count the transmit watchdog down by
`ms`.  Returns the new state and the bytes written to the network. -/
def clock (c : M17Control) (now : ℚ) (ms : Int) : M17Control × List (List Nat) :=
  let step1 :=
    if c.rf_state = .PROCESS ∧ c.rf_timeout ≤ now then handle_rf_timeout c else (c, [])
  let c1 := step1.1
  let c2 :=
    if c1.net_state = .PROCESS ∧ c1.net_timeout ≤ now then handle_net_timeout c1 else c1
  let c3 :=
    if 0 < c2.tx_watchdog then
      let w := c2.tx_watchdog - ms
      if w ≤ 0 then { c2 with tx_watchdog := w, rf_state := .NONE, net_state := .NONE }
      else { c2 with tx_watchdog := w }
    else c2
  (c3, step1.2)

/-- `M17Control.process_rf_data`, applied to the frame obtained from
the depth-1 RF queue (an empty `get_nowait` returns without effect and
is not modeled).  Dispatch on the leading sync bytes; frames with an
unknown sync are dropped. -/
def process_rf_data (c : M17Control) (now : ℚ) (data : List Nat) :
    Except PyErr (M17Control × List (List Nat)) :=
  let sync := pySlice data 0 M17Config.SYNC_LENGTH_BYTES
  if sync = M17Config.LINK_SETUP_SYNC then handle_rf_link_setup c now data
  else if sync = M17Config.STREAM_SYNC then handle_rf_stream c now data
  else if sync = M17Config.EOT_SYNC then .ok (handle_rf_eot c)
  else .ok (c, [])

end M17Control

/-- The `Mode` enum of `mmdvm_host.py`, in declaration (iteration)
order. -/
inductive Mode where
  | IDLE
  | DSTAR
  | DMR
  | YSF
  | P25
  | NXDN
  | M17
  | POCSAG
  | FM
  | AX25
  | LOCKOUT
  | ERROR
deriving DecidableEq, Repr

/-- `for mode in Mode` iterates the members in declaration order. -/
def Mode.members : List Mode :=
  [.IDLE, .DSTAR, .DMR, .YSF, .P25, .NXDN, .M17, .POCSAG, .FM, .AX25, .LOCKOUT, .ERROR]

/-- A Python value that can be passed to `Modem.read_mode_data`: the
host passes `Mode` enum members, while the annotated parameter type is
`str`. -/
inductive PyVal where
  | str (s : String)
  | mode (m : Mode)
deriving DecidableEq, Repr

/-- Python `==` between such a value and a string literal: two strings
compare by content; a `Mode` enum member is never equal to a string
(`Enum.__eq__` is identity-based and returns `NotImplemented` against
`str`, so `==` falls back to `False`). -/
def pyEqStr : PyVal → String → Bool
  | .str s, t => s == t
  | .mode _, _ => false

/-- The receive-side per-mode ring buffers of `modem.Modem`, as byte
queues. -/
structure ModemBuffers where
  rx_dstar : List Nat
  rx_dmr1 : List Nat
  rx_dmr2 : List Nat
  rx_ysf : List Nat
  rx_p25 : List Nat
  rx_nxdn : List Nat
  rx_m17 : List Nat
  rx_fm : List Nat
  rx_ax25 : List Nat
deriving DecidableEq, Repr

namespace Modem

/-- `RingBuffer.read(count)` preceded by the `data() > 0` guard used
at every call site of `read_mode_data`: consume up to `count` bytes. -/
def ringRead (buf : List Nat) (count : Nat) : List Nat × List Nat :=
  (buf.take count, buf.drop count)

/-- `Modem.read_mode_data` from `modem.py`: nine `mode == '...'`
string comparisons; any other argument falls through to `return
None`.  Returns the read bytes (or `none`) and the updated buffers. -/
def read_mode_data (m : ModemBuffers) (mode : PyVal) : Option (List Nat) × ModemBuffers :=
  if pyEqStr mode "DSTAR" then
    if 0 < m.rx_dstar.length then
      let r := ringRead m.rx_dstar 200; (some r.1, { m with rx_dstar := r.2 })
    else (none, m)
  else if pyEqStr mode "DMR1" then
    if 0 < m.rx_dmr1.length then
      let r := ringRead m.rx_dmr1 33; (some r.1, { m with rx_dmr1 := r.2 })
    else (none, m)
  else if pyEqStr mode "DMR2" then
    if 0 < m.rx_dmr2.length then
      let r := ringRead m.rx_dmr2 33; (some r.1, { m with rx_dmr2 := r.2 })
    else (none, m)
  else if pyEqStr mode "YSF" then
    if 0 < m.rx_ysf.length then
      let r := ringRead m.rx_ysf 130; (some r.1, { m with rx_ysf := r.2 })
    else (none, m)
  else if pyEqStr mode "P25" then
    if 0 < m.rx_p25.length then
      let r := ringRead m.rx_p25 35; (some r.1, { m with rx_p25 := r.2 })
    else (none, m)
  else if pyEqStr mode "NXDN" then
    if 0 < m.rx_nxdn.length then
      let r := ringRead m.rx_nxdn 25; (some r.1, { m with rx_nxdn := r.2 })
    else (none, m)
  else if pyEqStr mode "M17" then
    if 0 < m.rx_m17.length then
      let r := ringRead m.rx_m17 25; (some r.1, { m with rx_m17 := r.2 })
    else (none, m)
  else if pyEqStr mode "FM" then
    if 0 < m.rx_fm.length then
      let r := ringRead m.rx_fm 200; (some r.1, { m with rx_fm := r.2 })
    else (none, m)
  else if pyEqStr mode "AX25" then
    if 0 < m.rx_ax25.length then
      let r := ringRead m.rx_ax25 300; (some r.1, { m with rx_ax25 := r.2 })
    else (none, m)
  else (none, m)

end Modem

/-- The `Timer` dataclass of `mmdvm_host.py`. -/
structure HostTimer where
  running : Bool
  timeout : ℚ
  start_time : ℚ
deriving DecidableEq, Repr

/-- The host state touched by `MMDVMHost.process_modem_data`:
`self.mode`, the modem buffers, the set of created per-mode networks
(dict keys) and the mode hang timer. -/
structure HostState where
  mode : Mode
  modem : ModemBuffers
  networks : List Mode
  mode_timer : HostTimer
deriving DecidableEq, Repr

namespace MMDVMHost

/-- `MMDVMHost.set_mode` restricted to the fields of `HostState`
(mode change plus, on going `IDLE`, stopping the mode timer; the
per-mode `network.stop()` calls touch only the external network
objects). -/
def set_mode (h : HostState) (mode : Mode) : HostState :=
  if mode = h.mode then h
  else
    let h' := { h with mode := mode }
    if mode = .IDLE then { h' with mode_timer := { h'.mode_timer with running := false } }
    else h'

/-- One iteration of the `for mode in Mode` loop of
`MMDVMHost.process_modem_data`.  External collaborators are
parameters: `writeModem m d` is `self.networks[m].write_modem(d)` and
`rfModeHang m` is the `RFModeHang` config lookup; `now` is
`time.time()` for `Timer.start`. -/
def process_modem_step (writeModem : Mode → List Nat → Bool) (rfModeHang : Mode → ℚ)
    (now : ℚ) (acc : HostState × List (Mode × List Nat)) (mode : Mode) :
    HostState × List (Mode × List Nat) :=
  let h := acc.1
  let fw := acc.2
  if mode = .LOCKOUT ∨ mode = .ERROR ∨ mode = .IDLE then (h, fw)
      else if mode ∉ h.networks then (h, fw)
      else
        let rd := Modem.read_mode_data h.modem (.mode mode)
        let h1 := { h with modem := rd.2 }
        match rd.1 with
        | none => (h1, fw)
        | some data =>
          if data.isEmpty then (h1, fw)
          else if h1.mode = .IDLE then
            if writeModem mode data then
              let h2 := { h1 with
                mode_timer := { running := true, timeout := rfModeHang mode, start_time := now } }
              (set_mode h2 mode, fw ++ [(mode, data)])
            else (h1, fw)
          else if h1.mode = mode then
            if writeModem mode data then
              let h2 := { h1 with
                mode_timer := { h1.mode_timer with running := true, start_time := now } }
              (h2, fw ++ [(mode, data)])
            else (h1, fw)
          else (h1, fw)

/-- `MMDVMHost.process_modem_data`: iterate the loop body over the
`Mode` members in declaration order. -/
def process_modem_data (writeModem : Mode → List Nat → Bool) (rfModeHang : Mode → ℚ)
    (now : ℚ) (h : HostState) : HostState × List (Mode × List Nat) :=
  Mode.members.foldl (process_modem_step writeModem rfModeHang now) (h, [])

end MMDVMHost

section CrcLemmas

/-- Big-endian two-byte round trip (`n / 256 * 256 + n % 256 = n`). -/
theorem fromBytesBE_toBytesBE2 (n : Nat) :
    fromBytesBE (toBytesBE2 n) = n := by
  simp only [toBytesBE2, fromBytesBE, List.foldl]
  omega

/-- The 16-bit digest is bounded by `0xFFFF`. -/
theorem crc16_lt (data : List Nat) : crc32 data &&& 0xFFFF < 65536 :=
  Nat.lt_succ_of_le (Nat.and_le_right)

/-- Verifying data with its own appended digest succeeds. -/
theorem check_crc16_append (A : List Nat) (hA : A ≠ []) :
    check_crc16 (A ++ toBytesBE2 (crc32 A &&& 0xFFFF)) = .ok true := by
  have hlen : (A ++ toBytesBE2 (crc32 A &&& 0xFFFF)).length = A.length + 2 := by
    simp [toBytesBE2]
  have hA1 : 1 ≤ A.length := by
    cases A with
    | nil => exact absurd rfl hA
    | cons a t => simp
  rw [check_crc16, hlen, if_neg (by omega)]
  have hsub : A.length + 2 - 2 = A.length := by omega
  rw [hsub, List.take_left' rfl, List.drop_left' rfl]
  rw [create_crc16, if_neg (by simp [List.isEmpty_iff]; exact hA)]
  rw [fromBytesBE_toBytesBE2]
  simp

/-- `encode_crc16` on non-empty data returns the data with the
big-endian 16-bit digest appended. -/
theorem encode_crc16_eq (A : List Nat) (hA : A ≠ []) :
    encode_crc16 A = .ok (A ++ toBytesBE2 (crc32 A &&& 0xFFFF)) := by
  rw [encode_crc16, create_crc16, if_neg (by simp [List.isEmpty_iff]; exact hA)]
  simp only [check_crc16_append A hA]

end CrcLemmas

section ConcreteVectors

/-- A quiescent controller configuration used in concrete runs:
callsign `ME`, CAN 0, no policy restrictions, `tx_hang` 1 s, no
network, both sides in `NONE`, all counters zero. -/
def ctrlBase : M17Control :=
  { callsign := [77, 69]
    can := 0
    self_only := false
    allow_encryption := false
    tx_hang := 1
    network := none
    rf_state := .NONE
    net_state := .NONE
    rf_timeout := 0
    net_timeout := 0
    rf_frames := 0
    net_frames := 0
    rf_bits := 0
    net_bits := 0
    rf_errs := 0
    net_errs := 0
    rf_last_frame := 0
    net_last_frame := 0
    tx_watchdog := 0
    rf_lich := LICHReassembler.init
    net_lich := LICHReassembler.init }

/-- First 46 bytes of a stream frame: STREAM sync, frame number 6, all
other bytes zero. -/
def c1core : List Nat := [0xFF, 0x5D, 0x00, 0x06] ++ List.replicate 42 0

/-- The 48-byte wire frame obtained by appending the 16-bit digest:
accepted by `StreamFrame.decode`. -/
def c1frame : List Nat := c1core ++ toBytesBE2 (crc32 c1core &&& 0xFFFF)

end ConcreteVectors

/-- Claim C1 (refuted by the code): `StreamFrame.decode` extracts
the payload as bytes `[8..46)` of the wire frame, not `[8..24)`.  For
the accepted 48-byte frame `c1frame` the returned payload has 38
bytes, and processing the frame in the `PROCESS` state adds
`38 * 8 = 304` to `rf_bits`, not 128: after 10 such frames `rf_bits`
is `3040`, not `10 * 128` as the claim states. -/
theorem c1_stream_payload_is_38_bytes :
    StreamFrame.decode c1frame = .ok ⟨6, List.replicate 38 0, none, false⟩ ∧
    (List.replicate 38 0).length ≠ M17Config.PAYLOAD_LENGTH_BYTES ∧
    M17Control.process_rf_data { ctrlBase with rf_state := .PROCESS } 0 c1frame =
      .ok ({ ctrlBase with
              rf_state := .PROCESS
              rf_frames := 1
              rf_bits := 304
              rf_last_frame := 6
              rf_timeout := 1 }, []) := by
  refine ⟨by decide, by decide, by decide⟩

/-- A legal stream frame: sequence 0, 5-byte LICH fragment, 1-byte
payload. -/
def sfC2 : StreamFrame := ⟨0, [1], some [1, 2, 3, 4, 5], false⟩

/-- Claim C2 (refuted by the code): the stream round trip fails.
`encode` writes the 5-byte LICH fragment at offset 4 (shifting the
payload to offset 9) while `decode` reads a 4-byte fragment from
`[4..8)` and a 38-byte payload from `[8..46)`, so
`decode(encode(sf)) ≠ sf` - here the decoded frame has
`lich_fragment = [1,2,3,4]` and a payload beginning with the fifth
LICH byte followed by zero padding. -/
theorem c2_stream_roundtrip_fails :
    (StreamFrame.encode sfC2).bind StreamFrame.decode =
      .ok ⟨0, 5 :: 1 :: List.replicate 36 0, some [1, 2, 3, 4], false⟩ ∧
    (StreamFrame.encode sfC2).bind StreamFrame.decode ≠ .ok sfC2 := by
  refine ⟨by decide, by decide⟩

/-- A LINK_SETUP wire frame whose 46-byte LSF body fails the CRC
check (all-zero body). -/
def frameC3 : List Nat := [0x55, 0xF7] ++ List.replicate 46 0

/-- Claim C3 (refuted by the code): a LINK_SETUP frame whose body has
a bad CRC makes `LSF.decode` raise `LSFDecodeError`, and neither
`_handle_rf_link_setup` nor `process_rf_data` catches it - the
exception escapes `process_rf_data` (the `if not lsf:` logging branch
of the source is dead code, since `decode` raises instead of
returning a falsy value). -/
theorem c3_lsf_decode_error_escapes :
    LSF.decode (frameC3.drop 2) = .error .lsfDecodeError ∧
    M17Control.process_rf_data ctrlBase 0 frameC3 = .error .lsfDecodeError := by
  refine ⟨by decide, by decide⟩

/-- A legal LSF: callsigns `AB` / `CD`, CAN 1, stream voice, no
encryption, zero nonce. -/
def lsfC4 : LSF := ⟨[65, 66], [67, 68], 1, .STREAM, .VOICE, .NONE, .TEXT, List.replicate 14 0⟩

/-- Claim C4 counterexample: for the legal LSF `lsfC4` (callsign
lengths 2, CAN 1, 14-byte nonce) `LSF.encode` returns 31 bytes, not
`LSF_LENGTH_BYTES = 30`: the assembled fields already occupy 29
bytes, so the pad-to-28 `ljust` is a no-op and the 2 CRC bytes bring
the total to 31. -/
theorem c4_encode_returns_31_bytes :
    (LSF.encode lsfC4).map List.length = .ok 31 ∧
    (LSF.encode lsfC4).map List.length ≠ .ok M17Config.LSF_LENGTH_BYTES := by
  refine ⟨by decide, by decide⟩

namespace LSF

/-- The 6-byte wire form of a callsign: truncated to 6 bytes and
zero-padded (what `_encode_callsign` produces for ASCII input). -/
def callsign6 (cs : List Nat) : List Nat :=
  cs.take 6 ++ List.replicate (6 - (cs.take 6).length) 0

theorem callsign6_length (cs : List Nat) : (callsign6 cs).length = 6 := by
  simp [callsign6]

theorem callsign6_of_le (cs : List Nat) (h : cs.length ≤ 6) :
    callsign6 cs = cs ++ List.replicate (6 - cs.length) 0 := by
  simp [callsign6, List.take_of_length_le h]

theorem encodeCallsign_ok (cs : List Nat) (hascii : ∀ c ∈ cs, c < 128) :
    encodeCallsign cs = .ok (callsign6 cs) := by
  unfold encodeCallsign pyEncodeAscii
  rw [if_pos]
  · rfl
  · simpa [List.all_eq_true] using hascii

/-- The 29 bytes assembled by `LSF.encode` before the CRC: 6-byte
destination, 6-byte source, type byte, 2-byte big-endian CAN, 14-byte
nonce. -/
def wire (lsf : LSF) : List Nat :=
  fields lsf (callsign6 lsf.dst_callsign) (callsign6 lsf.src_callsign)

theorem wire_length (lsf : LSF) (hnonce : lsf.nonce.length = 14) :
    lsf.wire.length = 29 := by
  simp [wire, fields, toBytesBE2, callsign6_length, hnonce]

/-- `LSF.encode` on a legal LSF (non-empty ASCII callsigns of at most
6 characters, CAN at most `0xFFFF`, 14-byte nonce) succeeds and
returns the 29 assembled bytes (the pad to 28 is a no-op) followed by
the 2-byte big-endian digest: 31 bytes in total. -/
theorem encode_ok (lsf : LSF)
    (hd0 : lsf.dst_callsign ≠ []) (hd6 : lsf.dst_callsign.length ≤ 6)
    (hda : ∀ c ∈ lsf.dst_callsign, c < 128)
    (hs0 : lsf.src_callsign ≠ []) (hs6 : lsf.src_callsign.length ≤ 6)
    (hsa : ∀ c ∈ lsf.src_callsign, c < 128)
    (hcan : lsf.can ≤ 0xFFFF) (hnonce : lsf.nonce.length = 14) :
    encode lsf = .ok (lsf.wire ++ toBytesBE2 (crc32 lsf.wire &&& 0xFFFF)) := by
  have h1 : (lsf.dst_callsign.isEmpty ||
      decide (M17Config.MAX_CALLSIGN_LENGTH < lsf.dst_callsign.length)) = false := by
    simp [List.isEmpty_iff, M17Config.MAX_CALLSIGN_LENGTH]
    exact ⟨hd0, by omega⟩
  have h2 : (lsf.src_callsign.isEmpty ||
      decide (M17Config.MAX_CALLSIGN_LENGTH < lsf.src_callsign.length)) = false := by
    simp [List.isEmpty_iff, M17Config.MAX_CALLSIGN_LENGTH]
    exact ⟨hs0, by omega⟩
  have h3 : ¬ 0xFFFF < lsf.can := by omega
  have h4 : ¬ lsf.nonce.length ≠ M17Config.NULL_NONCE.length := by
    simp [M17Config.NULL_NONCE, hnonce]
  have hlj : pyLjust lsf.wire
      (M17Config.LSF_LENGTH_BYTES - M17Config.CRC_LENGTH_BYTES) 0 = lsf.wire := by
    simp [pyLjust, M17Config.LSF_LENGTH_BYTES, M17Config.CRC_LENGTH_BYTES,
      wire_length lsf hnonce]
  have hne : lsf.wire ≠ [] := by
    intro h
    have := wire_length lsf hnonce
    rw [h] at this
    simp at this
  unfold encode
  rw [if_neg (by simp [h1]), if_neg (by simp [h2]), if_neg h3, if_neg h4,
    encodeCallsign_ok _ hda, encodeCallsign_ok _ hsa]
  show (match encode_crc16 (pyLjust lsf.wire _ 0) with
    | .ok r => Except.ok r
    | .error _ => Except.error PyErr.lsfEncodeError) = _
  rw [hlj, encode_crc16_eq _ hne]

end LSF

/-- Claim C4 as amended: for every LSF with ASCII callsigns of length
1..6 in both fields, CAN in `[0, 0xFFFF]` and a 14-byte nonce,
`LSF.encode` returns exactly 31 bytes (not 30): the assembled fields
occupy 29 bytes, so the zero-pad to 28 bytes is a no-op, and the
2-byte big-endian CRC is appended. -/
theorem c4_amended_lsf_encode_31 (lsf : LSF)
    (hd0 : lsf.dst_callsign ≠ []) (hd6 : lsf.dst_callsign.length ≤ 6)
    (hda : ∀ c ∈ lsf.dst_callsign, c < 128)
    (hs0 : lsf.src_callsign ≠ []) (hs6 : lsf.src_callsign.length ≤ 6)
    (hsa : ∀ c ∈ lsf.src_callsign, c < 128)
    (hcan : lsf.can ≤ 0xFFFF) (hnonce : lsf.nonce.length = 14) :
    LSF.encode lsf = .ok (lsf.wire ++ toBytesBE2 (crc32 lsf.wire &&& 0xFFFF)) ∧
    (lsf.wire ++ toBytesBE2 (crc32 lsf.wire &&& 0xFFFF)).length = 31 := by
  refine ⟨LSF.encode_ok lsf hd0 hd6 hda hs0 hs6 hsa hcan hnonce, ?_⟩
  simp [toBytesBE2, LSF.wire_length lsf hnonce]

/-- Witness for the amended C4 at the concrete LSF `lsfC4`. -/
theorem c4_amended_lsf_encode_31_witness :
    lsfC4.dst_callsign ≠ [] ∧ lsfC4.dst_callsign.length ≤ 6 ∧ lsfC4.can ≤ 0xFFFF ∧
    lsfC4.nonce.length = 14 ∧
    (LSF.encode lsfC4 = .ok (lsfC4.wire ++ toBytesBE2 (crc32 lsfC4.wire &&& 0xFFFF)) ∧
      (lsfC4.wire ++ toBytesBE2 (crc32 lsfC4.wire &&& 0xFFFF)).length = 31) :=
  ⟨by decide, by decide, by decide, by decide,
    c4_amended_lsf_encode_31 lsfC4 (by decide) (by decide) (by decide) (by decide)
      (by decide) (by decide) (by decide) (by decide)⟩

section RoundTripLemmas

/-- `dropWhile` is the identity when no element satisfies the
predicate. -/
theorem dropWhile_eq_self_of_all {p : Nat → Bool} :
    ∀ l : List Nat, (∀ c ∈ l, p c = false) → l.dropWhile p = l
  | [], _ => rfl
  | a :: t, h => by
    rw [List.dropWhile_cons, h a (by simp)]
    simp

/-- Codes at least 33 are not Python whitespace. -/
theorem pyIsSpace_eq_false {c : Nat} (h : 33 ≤ c) : pyIsSpace c = false := by
  simp [pyIsSpace]
  omega

/-- Decoding a zero-padded callsign of printable ASCII characters
recovers the callsign: `rstrip` removes exactly the padding, the
ASCII decode keeps every byte, and `strip` finds no whitespace. -/
theorem decodeCallsign_roundtrip (cs : List Nat)
    (h : ∀ c ∈ cs, 33 ≤ c ∧ c < 128) (k : Nat) :
    LSF.decodeCallsign (cs ++ List.replicate k 0) = cs := by
  have hstrip : rstripZeros (cs ++ List.replicate k 0) = cs := by
    unfold rstripZeros
    rw [List.reverse_append, List.reverse_replicate]
    rw [List.dropWhile_append_of_pos (by simp)]
    rw [dropWhile_eq_self_of_all cs.reverse (by
      intro c hc
      have := (h c (List.mem_reverse.mp hc)).1
      simp
      omega)]
    exact List.reverse_reverse cs
  have hfilter : cs.filter (fun c => decide (c < 128)) = cs := by
    rw [List.filter_eq_self]
    intro c hc
    simpa using (h c hc).2
  have hspace : ∀ c ∈ cs, pyIsSpace c = false := fun c hc =>
    pyIsSpace_eq_false (h c hc).1
  unfold LSF.decodeCallsign pyStrip
  rw [hstrip, hfilter, dropWhile_eq_self_of_all cs hspace,
    dropWhile_eq_self_of_all cs.reverse
      (fun c hc => hspace c (List.mem_reverse.mp hc)),
    List.reverse_reverse]

/-- Extracting the four enum fields from the packed type byte returns
the original enum values (checked over all 54 combinations). -/
theorem typeByte_extract (pt : PacketType) (dt : DataType) (et : EncryptionType)
    (est : EncryptionSubType) :
    PacketType.ofVal
        ((pt.val ||| (dt.val <<< 1) ||| (et.val <<< 3) ||| (est.val <<< 5)) &&& 0x01) =
      .ok pt ∧
    DataType.ofVal
        (((pt.val ||| (dt.val <<< 1) ||| (et.val <<< 3) ||| (est.val <<< 5)) >>> 1) &&& 0x03) =
      .ok dt ∧
    EncryptionType.ofVal
        (((pt.val ||| (dt.val <<< 1) ||| (et.val <<< 3) ||| (est.val <<< 5)) >>> 3) &&& 0x03) =
      .ok et ∧
    EncryptionSubType.ofVal
        (((pt.val ||| (dt.val <<< 1) ||| (et.val <<< 3) ||| (est.val <<< 5)) >>> 5) &&& 0x03) =
      .ok est := by
  cases pt <;> cases dt <;> cases et <;> cases est <;> decide

/-- Element lookup just past a prefix of known length. -/
theorem getD_append_cons (l1 : List Nat) (x : Nat) (r : List Nat) (d : Nat) :
    (l1 ++ x :: r).getD l1.length d = x := by
  induction l1 with
  | nil => rfl
  | cons a t ih => simpa using ih

end RoundTripLemmas

/-- Decoding the wire form produced by `LSF.encode` recovers the
original LSF, for legal printable-ASCII callsigns. -/
theorem LSF.decode_wire (lsf : LSF)
    (hd6 : lsf.dst_callsign.length ≤ 6)
    (hda : ∀ c ∈ lsf.dst_callsign, 33 ≤ c ∧ c < 128)
    (hs6 : lsf.src_callsign.length ≤ 6)
    (hsa : ∀ c ∈ lsf.src_callsign, 33 ≤ c ∧ c < 128)
    (hnonce : lsf.nonce.length = 14) :
    LSF.decode (lsf.wire ++ toBytesBE2 (crc32 lsf.wire &&& 0xFFFF)) = .ok lsf := by
  have hwlen : lsf.wire.length = 29 := LSF.wire_length lsf hnonce
  have hwne : lsf.wire ≠ [] := by
    intro h
    rw [h] at hwlen
    simp at hwlen
  set cr := toBytesBE2 (crc32 lsf.wire &&& 0xFFFF) with hcr
  have hcrlen : cr.length = 2 := by simp [hcr, toBytesBE2]
  have hd6l : (callsign6 lsf.dst_callsign).length = 6 := callsign6_length _
  have hs6l : (callsign6 lsf.src_callsign).length = 6 := callsign6_length _
  have hb : lsf.wire ++ cr = callsign6 lsf.dst_callsign ++ (callsign6 lsf.src_callsign ++
      (typeByte lsf :: (toBytesBE2 lsf.can ++ (lsf.nonce ++ cr)))) := by
    simp [wire, fields, List.append_assoc]
  have hlen31 : (lsf.wire ++ cr).length = 31 := by
    simp [hwlen, hcrlen]
  have hdst : pySlice (lsf.wire ++ cr) 0 6 = callsign6 lsf.dst_callsign := by
    rw [pySlice, hb]
    simpa using List.take_left' hd6l
  have hsrc : pySlice (lsf.wire ++ cr) 6 12 = callsign6 lsf.src_callsign := by
    rw [pySlice, hb, List.drop_left' hd6l]
    simpa using List.take_left' hs6l
  have htb : (lsf.wire ++ cr).getD 12 0 = typeByte lsf := by
    have hb2 : lsf.wire ++ cr = (callsign6 lsf.dst_callsign ++ callsign6 lsf.src_callsign) ++
        (typeByte lsf :: (toBytesBE2 lsf.can ++ (lsf.nonce ++ cr))) := by
      rw [hb, List.append_assoc]
    have hl12 : (callsign6 lsf.dst_callsign ++ callsign6 lsf.src_callsign).length = 12 := by
      simp [hd6l, hs6l]
    rw [hb2, ← hl12, getD_append_cons]
  have hcan2 : pySlice (lsf.wire ++ cr) 13 15 = toBytesBE2 lsf.can := by
    have hb3 : lsf.wire ++ cr = ((callsign6 lsf.dst_callsign ++ callsign6 lsf.src_callsign) ++
        [typeByte lsf]) ++ (toBytesBE2 lsf.can ++ (lsf.nonce ++ cr)) := by
      rw [hb]
      simp [List.append_assoc]
    have hl13 : ((callsign6 lsf.dst_callsign ++ callsign6 lsf.src_callsign) ++
        [typeByte lsf]).length = 13 := by
      simp [hd6l, hs6l]
    rw [pySlice, hb3, List.drop_left' hl13]
    simpa using List.take_left' (by simp [toBytesBE2] : (toBytesBE2 lsf.can).length = 2)
  have hnn : pySlice (lsf.wire ++ cr) 15 29 = lsf.nonce := by
    have hb4 : lsf.wire ++ cr = (((callsign6 lsf.dst_callsign ++ callsign6 lsf.src_callsign) ++
        [typeByte lsf]) ++ toBytesBE2 lsf.can) ++ (lsf.nonce ++ cr) := by
      rw [hb]
      simp [List.append_assoc]
    have hl15 : ((((callsign6 lsf.dst_callsign ++ callsign6 lsf.src_callsign) ++
        [typeByte lsf]) ++ toBytesBE2 lsf.can)).length = 15 := by
      simp [hd6l, hs6l, toBytesBE2]
    rw [pySlice, hb4, List.drop_left' hl15]
    simpa using List.take_left' hnonce
  have henum := typeByte_extract lsf.packet_type lsf.data_type lsf.encryption_type
    lsf.encryption_subtype
  have hdc : LSF.decodeCallsign (callsign6 lsf.dst_callsign) = lsf.dst_callsign := by
    rw [callsign6_of_le _ hd6]
    exact decodeCallsign_roundtrip _ hda _
  have hsc : LSF.decodeCallsign (callsign6 lsf.src_callsign) = lsf.src_callsign := by
    rw [callsign6_of_le _ hs6]
    exact decodeCallsign_roundtrip _ hsa _
  unfold LSF.decode
  rw [hlen31, if_neg (by norm_num [M17Config.LSF_LENGTH_BYTES]),
    check_crc16_append lsf.wire hwne]
  simp only [Bool.not_true, Bool.false_eq_true, if_false, hdst, hsrc, htb, hcan2, hdc, hsc]
  have h1 : PacketType.ofVal (typeByte lsf &&& 0x01) = .ok lsf.packet_type := henum.1
  have h2 : DataType.ofVal ((typeByte lsf >>> 1) &&& 0x03) = .ok lsf.data_type := henum.2.1
  have h3 : EncryptionType.ofVal ((typeByte lsf >>> 3) &&& 0x03) = .ok lsf.encryption_type :=
    henum.2.2.1
  have h4 : EncryptionSubType.ofVal ((typeByte lsf >>> 5) &&& 0x03) =
      .ok lsf.encryption_subtype := henum.2.2.2
  rw [h1, h2, h3, h4]
  rw [if_pos (by omega), hnn, fromBytesBE_toBytesBE2]

/-- An ASCII uppercase letter or digit (legal callsign character). -/
def isUpperOrDigit (c : Nat) : Bool :=
  (48 ≤ c && c ≤ 57) || (65 ≤ c && c ≤ 90)

/-- Claim C10: for every LSF whose callsigns consist of 1..6 ASCII
uppercase/digit characters, whose CAN is in `[0, 0xFFFF]`, and whose
nonce is the all-zero 14-byte value, `LSF.decode (LSF.encode lsf)`
succeeds and returns a value equal to `lsf`. -/
theorem c10_lsf_roundtrip (lsf : LSF)
    (hd0 : lsf.dst_callsign ≠ []) (hd6 : lsf.dst_callsign.length ≤ 6)
    (hda : ∀ c ∈ lsf.dst_callsign, isUpperOrDigit c = true)
    (hs0 : lsf.src_callsign ≠ []) (hs6 : lsf.src_callsign.length ≤ 6)
    (hsa : ∀ c ∈ lsf.src_callsign, isUpperOrDigit c = true)
    (hcan : lsf.can ≤ 0xFFFF) (hnonce : lsf.nonce = List.replicate 14 0) :
    ∃ b, LSF.encode lsf = .ok b ∧ LSF.decode b = .ok lsf := by
  have hchar : ∀ (cs : List Nat), (∀ c ∈ cs, isUpperOrDigit c = true) →
      ∀ c ∈ cs, 33 ≤ c ∧ c < 128 := by
    intro cs hcs c hc
    have := hcs c hc
    simp [isUpperOrDigit] at this
    omega
  have hda' := hchar _ hda
  have hsa' := hchar _ hsa
  have hn14 : lsf.nonce.length = 14 := by
    rw [hnonce]
    simp
  refine ⟨lsf.wire ++ toBytesBE2 (crc32 lsf.wire &&& 0xFFFF), ?_, ?_⟩
  · exact LSF.encode_ok lsf hd0 hd6 (fun c hc => (hda' c hc).2) hs0 hs6
      (fun c hc => (hsa' c hc).2) hcan hn14
  · exact LSF.decode_wire lsf hd6 hda' hs6 hsa' hn14

/-- A legal LSF with callsigns `W1AW` and `ALL`, CAN 1, zero nonce. -/
def lsfC10 : LSF :=
  ⟨[87, 49, 65, 87], [65, 76, 76], 1, .STREAM, .VOICE, .NONE, .TEXT, List.replicate 14 0⟩

/-- Witness for C10 at the concrete LSF `lsfC10`. -/
theorem c10_lsf_roundtrip_witness :
    lsfC10.dst_callsign ≠ [] ∧ lsfC10.dst_callsign.length ≤ 6 ∧
    lsfC10.can ≤ 0xFFFF ∧ lsfC10.nonce = List.replicate 14 0 ∧
    (∃ b, LSF.encode lsfC10 = .ok b ∧ LSF.decode b = .ok lsfC10) :=
  ⟨by decide, by decide, by decide, by decide,
    c10_lsf_roundtrip lsfC10 (by decide) (by decide) (by decide) (by decide)
      (by decide) (by decide) (by decide) (by decide)⟩

/-- Inversion of a successful `StreamFrame.decode`: the input starts
with the STREAM sync, and every field of the result is determined by
the corresponding slice of the input. -/
theorem StreamFrame.decode_ok_inv (data : List Nat) (sf : StreamFrame)
    (h : StreamFrame.decode data = .ok sf) :
    pySlice data 0 2 = M17Config.STREAM_SYNC ∧
    sf.frame_number = fromBytesBE (pySlice data 2 4) &&& 0x7FFF ∧
    sf.payload = pySlice data 8 46 ∧
    sf.lich_fragment =
      (if fromBytesBE (pySlice data 2 4) &&& 0x7FFF < 6 then some (pySlice data 4 8)
       else none) := by
  unfold StreamFrame.decode at h
  norm_num [M17Config.SYNC_LENGTH_BYTES, M17Config.FRAME_LENGTH_BYTES,
    M17Config.CRC_LENGTH_BYTES, M17Config.NUM_LICH_FRAGMENTS,
    M17Config.MIN_FRAME_LENGTH, M17Config.MAX_FRAME_LENGTH] at h
  split at h
  · exact absurd h (by simp)
  · split at h
    · exact absurd h (by simp)
    · split at h
      · exact absurd h (by simp)
      · split at h
        · exact absurd h (by simp)
        · split at h
          · rename_i hsync
            injection h with h2
            rw [← h2]
            exact ⟨hsync, rfl, rfl, rfl⟩
          · exact absurd h (by simp)

/-- `add_fragment` rejects any fragment whose length is not
`LSF_FRAGMENT_LENGTH_BYTES = 5`, leaving the state unchanged. -/
theorem add_fragment_badlen (st : LICHReassembler.State) (frag : List Nat) (idx : Nat)
    (h : frag.length ≠ 5) :
    LICHReassembler.add_fragment st frag idx = (.error .valueError, st) := by
  unfold LICHReassembler.add_fragment
  rw [if_pos (by simpa [M17Config.LSF_FRAGMENT_LENGTH_BYTES] using h)]

/-- Claim C5: (a) every accepted 48-byte stream frame with sequence
below 6 carries the 4-byte slice `[4..8)` of the wire frame as its
`lich_fragment`; (b) `add_fragment` raises `ValueError` for any
fragment whose length differs from `LSF_FRAGMENT_LENGTH_BYTES = 5`;
hence (c) the RF stream handler raises `ValueError` (out of
`process_rf_data`) on every in-`PROCESS` 48-byte stream frame that
decodes with sequence below 6. -/
theorem c5_lich_fragment_valueerror :
    (∀ (data : List Nat) (sf : StreamFrame), data.length = 48 →
      StreamFrame.decode data = .ok sf → sf.frame_number < 6 →
      sf.lich_fragment = some (pySlice data 4 8) ∧ (pySlice data 4 8).length = 4) ∧
    (∀ (st : LICHReassembler.State) (frag : List Nat) (idx : Nat), frag.length ≠ 5 →
      LICHReassembler.add_fragment st frag idx = (.error .valueError, st)) ∧
    (∀ (c : M17Control) (now : ℚ) (data : List Nat) (sf : StreamFrame),
      c.rf_state = .PROCESS → data.length = 48 →
      StreamFrame.decode data = .ok sf → sf.frame_number < 6 →
      M17Control.process_rf_data c now data = .error .valueError) := by
  have hslice : ∀ data : List Nat, data.length = 48 → (pySlice data 4 8).length = 4 := by
    intro data hlen
    simp [pySlice, hlen]
  have hlich : ∀ (data : List Nat) (sf : StreamFrame), data.length = 48 →
      StreamFrame.decode data = .ok sf → sf.frame_number < 6 →
      sf.lich_fragment = some (pySlice data 4 8) := by
    intro data sf hlen hdec hfn
    obtain ⟨-, hfneq, -, hlf⟩ := StreamFrame.decode_ok_inv data sf hdec
    rw [hlf, if_pos (hfneq ▸ hfn)]
  refine ⟨fun data sf hlen hdec hfn => ⟨hlich data sf hlen hdec hfn, hslice data hlen⟩,
    add_fragment_badlen, ?_⟩
  intro c now data sf hstate hlen hdec hfn
  obtain ⟨hsync, -, -, -⟩ := StreamFrame.decode_ok_inv data sf hdec
  have hl4 := hslice data hlen
  have hlf := hlich data sf hlen hdec hfn
  unfold M17Control.process_rf_data
  rw [show pySlice data 0 M17Config.SYNC_LENGTH_BYTES = M17Config.STREAM_SYNC from hsync,
    if_neg (by decide), if_pos rfl]
  unfold M17Control.handle_rf_stream
  rw [if_neg (by simp [hstate]), hdec]
  dsimp only
  rw [hlf]
  have hne : pySlice data 4 8 ≠ [] := by
    intro he
    rw [he] at hl4
    simp at hl4
  dsimp only
  rw [if_neg (by simpa [List.isEmpty_iff] using hne),
    add_fragment_badlen c.rf_lich _ sf.frame_number (by omega)]

/-- First 46 bytes of a stream frame with sequence 0. -/
def c5core : List Nat := [0xFF, 0x5D, 0x00, 0x00] ++ List.replicate 42 0

/-- The corresponding accepted 48-byte wire frame. -/
def c5frame : List Nat := c5core ++ toBytesBE2 (crc32 c5core &&& 0xFFFF)

/-- Witness for C5 at the concrete frame `c5frame` (sequence 0) and a
controller in `PROCESS`. -/
theorem c5_lich_fragment_valueerror_witness :
    ({ ctrlBase with rf_state := .PROCESS } : M17Control).rf_state = .PROCESS ∧
    c5frame.length = 48 ∧
    StreamFrame.decode c5frame =
      .ok ⟨0, List.replicate 38 0, some (List.replicate 4 0), false⟩ ∧
    (0 : Nat) < 6 ∧
    M17Control.process_rf_data { ctrlBase with rf_state := .PROCESS } 0 c5frame =
      .error .valueError :=
  ⟨by decide, by decide, by decide, by decide,
    c5_lich_fragment_valueerror.2.2 { ctrlBase with rf_state := .PROCESS } 0 c5frame
      ⟨0, List.replicate 38 0, some (List.replicate 4 0), false⟩
      (by decide) (by decide) (by decide) (by decide)⟩

/-- Claim C9: with `self_only = true`, an RF LINK_SETUP frame whose
decoded destination callsign differs from the configured callsign is
ignored: the controller state is returned unchanged (state stays
`NONE`, every counter, timeout, last-frame and reassembler field keeps
its value) and nothing is forwarded to the network. -/
theorem c9_self_only_ignores (c : M17Control) (now : ℚ) (data : List Nat) (lsf : LSF)
    (hself : c.self_only = true)
    (hstate : c.rf_state = .NONE)
    (hsync : pySlice data 0 M17Config.SYNC_LENGTH_BYTES = M17Config.LINK_SETUP_SYNC)
    (hdec : LSF.decode (data.drop M17Config.SYNC_LENGTH_BYTES) = .ok lsf)
    (hne : lsf.dst_callsign ≠ c.callsign) :
    M17Control.process_rf_data c now data = .ok (c, []) := by
  unfold M17Control.process_rf_data
  rw [if_pos hsync]
  unfold M17Control.handle_rf_link_setup
  rw [if_neg (by simp [hstate]), hdec]
  dsimp only
  rw [if_pos ⟨hself, hne⟩]

/-- Controller with `self_only` enabled. -/
def c9ctrl : M17Control := { ctrlBase with self_only := true }

/-- A 46-byte LSF body (29 wire bytes, 15 zero-pad bytes, 2 CRC
bytes) that decodes to `lsfC4`. -/
def c9body : List Nat :=
  (lsfC4.wire ++ List.replicate 15 0) ++
    toBytesBE2 (crc32 (lsfC4.wire ++ List.replicate 15 0) &&& 0xFFFF)

/-- The corresponding 48-byte LINK_SETUP wire frame. -/
def c9frame : List Nat := M17Config.LINK_SETUP_SYNC ++ c9body

/-- Witness for C9 at the concrete frame `c9frame` (destination `AB`,
local callsign `ME`). -/
theorem c9_self_only_ignores_witness :
    c9ctrl.self_only = true ∧ c9ctrl.rf_state = .NONE ∧
    pySlice c9frame 0 M17Config.SYNC_LENGTH_BYTES = M17Config.LINK_SETUP_SYNC ∧
    LSF.decode (c9frame.drop M17Config.SYNC_LENGTH_BYTES) = .ok lsfC4 ∧
    lsfC4.dst_callsign ≠ c9ctrl.callsign ∧
    M17Control.process_rf_data c9ctrl 0 c9frame = .ok (c9ctrl, []) :=
  ⟨by decide, by decide, by decide, by decide, by decide,
    c9_self_only_ignores c9ctrl 0 c9frame lsfC4 (by decide) (by decide) (by decide)
      (by decide) (by decide)⟩

/-- Claim C8: (a) a `clock` call at a time past the armed RF deadline
while the RF side is in `PROCESS` returns the RF side to `NONE`,
resets the RF LICH reassembler, and forwards the 2-byte EOT sync to
the network exactly once - precisely when the network is connected;
(b) any `clock` call with the RF side at `NONE` forwards nothing. -/
theorem c8_watchdog_eot_once :
    (∀ (c : M17Control) (now : ℚ) (ms : Int), c.rf_state = .PROCESS →
      c.rf_timeout ≤ now →
      (c.clock now ms).1.rf_state = .NONE ∧
      (c.clock now ms).1.rf_lich = LICHReassembler.init ∧
      (c.clock now ms).2 =
        (if c.networkConnected then [M17Config.EOT_SYNC] else [])) ∧
    (∀ (c : M17Control) (now : ℚ) (ms : Int), c.rf_state = .NONE →
      (c.clock now ms).2 = []) := by
  constructor
  · intro c now ms hstate hto
    unfold M17Control.clock M17Control.handle_rf_timeout
    rw [if_pos ⟨hstate, hto⟩, if_neg (by simp [hstate])]
    dsimp only
    unfold M17Control.handle_net_timeout
    split_ifs <;> simp
  · intro c now ms hstate
    unfold M17Control.clock
    rw [if_neg (by simp [hstate])]

/-- The nine mode-name strings `read_mode_data` compares against. -/
def modeStrings : List String :=
  ["DSTAR", "DMR1", "DMR2", "YSF", "P25", "NXDN", "M17", "FM", "AX25"]

/-- A `foldl` whose step fixes the accumulator is the identity. -/
theorem foldl_fixed {α β : Type} (f : α → β → α) (hf : ∀ a b, f a b = a) :
    ∀ (l : List β) (a : α), l.foldl f a = a
  | [], _ => rfl
  | b :: t, a => by rw [List.foldl_cons, hf a b, foldl_fixed f hf t a]

/-- Claim C6: `Modem.read_mode_data` returns `None` (and leaves the
ring buffers untouched) for every argument value that is not equal to
one of the nine mode-name strings; a `Mode` enum member is never equal
to a string; consequently `MMDVMHost.process_modem_data`, which passes
`Mode` members, never obtains data, never forwards anything to any
network, and returns the host state (including `current_mode`)
unchanged. -/
theorem c6_mode_enum_never_reads :
    (∀ (m : ModemBuffers) (v : PyVal), (∀ s ∈ modeStrings, v ≠ .str s) →
      Modem.read_mode_data m v = (none, m)) ∧
    (∀ (mo : Mode) (s : String), pyEqStr (.mode mo) s = false) ∧
    (∀ (writeModem : Mode → List Nat → Bool) (rfModeHang : Mode → ℚ) (now : ℚ)
      (h : HostState),
      MMDVMHost.process_modem_data writeModem rfModeHang now h = (h, [])) := by
  have hread : ∀ (m : ModemBuffers) (v : PyVal), (∀ s ∈ modeStrings, v ≠ .str s) →
      Modem.read_mode_data m v = (none, m) := by
    intro m v hv
    cases v with
    | mode mo => simp [Modem.read_mode_data, pyEqStr]
    | str t =>
      have hne : ∀ s ∈ modeStrings, (t == s) = false := by
        intro s hs
        have := hv s hs
        simp only [ne_eq, PyVal.str.injEq] at this
        exact beq_eq_false_iff_ne.mpr this
      simp [Modem.read_mode_data, pyEqStr,
        hne "DSTAR" (by simp [modeStrings]), hne "DMR1" (by simp [modeStrings]),
        hne "DMR2" (by simp [modeStrings]), hne "YSF" (by simp [modeStrings]),
        hne "P25" (by simp [modeStrings]), hne "NXDN" (by simp [modeStrings]),
        hne "M17" (by simp [modeStrings]), hne "FM" (by simp [modeStrings]),
        hne "AX25" (by simp [modeStrings])]
  refine ⟨hread, fun mo s => rfl, ?_⟩
  intro writeModem rfModeHang now h
  unfold MMDVMHost.process_modem_data
  rw [foldl_fixed _ ?_ Mode.members (h, [])]
  intro acc mode
  unfold MMDVMHost.process_modem_step
  by_cases h1 : mode = .LOCKOUT ∨ mode = .ERROR ∨ mode = .IDLE
  · simp [h1]
  · rw [if_neg h1]
    by_cases h2 : mode ∈ acc.1.networks
    · rw [if_neg (by simp [h2])]
      rw [hread acc.1.modem (.mode mode) (by intro s hs; simp)]
    · rw [if_pos h2]

/-- Concrete modem buffers with pending DSTAR and M17 bytes. -/
def c6modem : ModemBuffers := ⟨[1, 2, 3], [], [], [], [], [], [9, 9], [], []⟩

/-- Concrete host state: idle, with DSTAR and M17 networks created. -/
def c6host : HostState :=
  { mode := .IDLE, modem := c6modem, networks := [.DSTAR, .M17], mode_timer := ⟨false, 0, 0⟩ }

/-- Witness for C6: a `Mode` member argument yields no data even with
non-empty buffers, and a full `process_modem_data` pass changes
nothing and forwards nothing. -/
theorem c6_mode_enum_never_reads_witness :
    (∀ s ∈ modeStrings, (PyVal.mode .M17) ≠ .str s) ∧
    Modem.read_mode_data c6modem (.mode .M17) = (none, c6modem) ∧
    pyEqStr (.mode .DSTAR) "DSTAR" = false ∧
    MMDVMHost.process_modem_data (fun _ _ => true) (fun _ => 10) 0 c6host = (c6host, []) :=
  ⟨by decide, c6_mode_enum_never_reads.1 c6modem (.mode .M17) (by decide),
    c6_mode_enum_never_reads.2.1 .DSTAR "DSTAR",
    c6_mode_enum_never_reads.2.2 (fun _ _ => true) (fun _ => 10) 0 c6host⟩

namespace LICHReassembler

/-- The six fragment indices in order. -/
def idxList : List (Fin 6) := [0, 1, 2, 3, 4, 5]

/-- Run a sequence of `add_fragment` calls: fragment `f i` is added at
index `i` for each listed index, threading the reassembler state;
returns the list of per-call results and the final state. -/
def runAdds (f : Fin 6 → List Nat) : List (Fin 6) → State →
    List (Except PyErr (Option LSF)) × State
  | [], st => ([], st)
  | i :: rest, st =>
    let r := add_fragment st (f i) i.val
    let tail := runAdds f rest r.2
    (r.1 :: tail.1, tail.2)

/-- The reassembler state whose slot `j` holds fragment `f j` exactly
when `S j` is set. -/
def stOf (f : Fin 6 → List Nat) (S : Fin 6 → Bool) : State :=
  idxList.map (fun j => if S j then some (f j) else none)

/-- The value of the sixth successful `add_fragment` call: the decode
of the full six-fragment concatenation, as an `Except` result. -/
def lichResult (f : Fin 6 → List Nat) : Except PyErr (Option LSF) :=
  match LSF.decode (joinFragments (stOf f (fun _ => true))) with
  | .ok lsf => .ok (some lsf)
  | .error _ => .error .fragmentError

theorem stOf_congr (f : Fin 6 → List Nat) {S T : Fin 6 → Bool}
    (h : ∀ j, S j = T j) : stOf f S = stOf f T := by
  unfold stOf
  exact List.map_congr_left (fun j _ => by rw [h j])

theorem stOf_false (f : Fin 6 → List Nat) : stOf f (fun _ => false) = init := rfl

theorem stOf_set (f : Fin 6 → List Nat) (S : Fin 6 → Bool) (i : Fin 6) :
    (stOf f S).set i.val (some (f i)) =
      stOf f (fun j => if j = i then true else S j) := by
  fin_cases i <;> simp [stOf, idxList]

theorem stOf_all (f : Fin 6 → List Nat) (S : Fin 6 → Bool) :
    (stOf f S).all Option.isSome = idxList.all S := by
  have hj : ∀ j : Fin 6, Option.isSome (if S j then some (f j) else none) = S j := by
    intro j
    cases h : S j <;> simp [h]
  simp [stOf, idxList, List.all, hj]

theorem idxList_all_iff (S : Fin 6 → Bool) :
    idxList.all S = true ↔ ∀ j, S j = true := by
  constructor
  · intro h j
    fin_cases j <;> simp [idxList, List.all] at h <;> tauto
  · intro h
    simp [idxList, List.all, h]

/-- One valid `add_fragment` call on a state of the `stOf` shape. -/
theorem add_fragment_stOf (f : Fin 6 → List Nat) (hf : ∀ i, (f i).length = 5)
    (S : Fin 6 → Bool) (i : Fin 6) :
    add_fragment (stOf f S) (f i) i.val =
      (let S' := fun j => if j = i then true else S j
       if idxList.all S' then
         match LSF.decode (joinFragments (stOf f S')) with
         | .ok lsf => (.ok (some lsf), stOf f S')
         | .error _ => (.error .fragmentError, stOf f S')
       else (.ok none, stOf f S')) := by
  unfold add_fragment
  rw [if_neg (by simp [hf i, M17Config.LSF_FRAGMENT_LENGTH_BYTES]),
    if_neg (by simp [M17Config.NUM_LICH_FRAGMENTS, i.isLt])]
  dsimp only
  rw [stOf_set, stOf_all]


/-- Running `add_fragment` over any duplicate-free list of indices
that covers the unfilled slots: every call before the last returns
`None`, the last call returns the decode result of the full
concatenation, and the final state is the filled state - independent
of the order of the indices. -/
theorem runAdds_spec (f : Fin 6 → List Nat) (hf : ∀ i, (f i).length = 5) :
    ∀ (q : List (Fin 6)) (S : Fin 6 → Bool), q.Nodup → (∀ i ∈ q, S i = false) →
      (∀ j, S j = true ∨ j ∈ q) →
      runAdds f q (stOf f S) =
        ((if q = [] then []
          else List.replicate (q.length - 1) (.ok none) ++ [lichResult f]),
         stOf f (fun j => S j || decide (j ∈ q)))
  | [], S, _, _, _ => by
    simp [runAdds]
  | i :: rest, S, hnd, hdisj, hcov => by
    have hndr : rest.Nodup := (List.nodup_cons.mp hnd).2
    have hir : i ∉ rest := (List.nodup_cons.mp hnd).1
    unfold runAdds
    rw [add_fragment_stOf f hf S i]
    dsimp only
    by_cases hrest : rest = []
    · subst hrest
      have hall : ∀ j, (if j = i then true else S j) = true := by
        intro j
        by_cases hji : j = i
        · simp [hji]
        · rcases hcov j with h | h
          · simp [h]
          · simp at h
            exact absurd h hji
      rw [if_pos ((idxList_all_iff _).mpr hall)]
      have hst : stOf f (fun j => if j = i then true else S j) =
          stOf f (fun _ => true) := stOf_congr f hall
      rw [hst]
      unfold lichResult
      have hstate : stOf f (fun _ => true) =
          stOf f (fun j => S j || decide (j = i)) := by
        refine stOf_congr f ?_
        intro j
        by_cases hji : j = i
        · simp [hji]
        · have hS := hall j
          rw [if_neg hji] at hS
          simp [hS]
      cases hdec : LSF.decode (joinFragments (stOf f (fun _ => true))) with
      | ok lsf => simp [runAdds, hdec, ← hstate]
      | error e => simp [runAdds, hdec, ← hstate]
    · obtain ⟨j0, t0, rfl⟩ : ∃ j0 t0, rest = j0 :: t0 := by
        cases rest with
        | nil => exact absurd rfl hrest
        | cons a t => exact ⟨a, t, rfl⟩
      have hj0 : (if j0 = i then true else S j0) = false := by
        rw [if_neg (by intro h; exact hir (h ▸ List.mem_cons_self j0 t0))]
        exact hdisj j0 (List.mem_cons_of_mem i (List.mem_cons_self j0 t0))
      rw [if_neg (by
        intro hall
        have := (idxList_all_iff _).mp hall j0
        rw [hj0] at this
        exact Bool.false_ne_true this)]
      have hIH := runAdds_spec f hf (j0 :: t0) (fun j => if j = i then true else S j)
        hndr
        (by
          intro i' hi'
          show (if i' = i then true else S i') = false
          rw [if_neg (by intro h; exact hir (h ▸ hi'))]
          exact hdisj i' (List.mem_cons_of_mem i hi'))
        (by
          intro j
          show (if j = i then true else S j) = true ∨ j ∈ j0 :: t0
          rcases hcov j with h | h
          · left
            by_cases hji : j = i
            · simp [hji]
            · rw [if_neg hji]
              exact h
          · rcases List.mem_cons.mp h with h | h
            · left
              simp [h]
            · right
              exact h)
      rw [hIH]
      dsimp only
      rw [Prod.mk.injEq]
      refine ⟨?_, stOf_congr f ?_⟩
      · rw [if_neg (by simp), if_neg (by simp)]
        simp [List.replicate_succ]
      · intro j
        by_cases hji : j = i
        · simp [hji]
        · simp [hji, List.mem_cons]

end LICHReassembler

/-- Claim C7: (part 1) a valid `add_fragment` call stores the
fragment at its index; it returns an LSF exactly when afterwards all
six slots are populated and the concatenation decodes, it returns
`None` exactly when some slot is still empty, and it raises
`FragmentError` exactly when all six slots are populated but the
concatenation fails to decode.  (part 2) For any six 5-byte fragments
added at the six distinct indices in any order starting from a fresh
reassembler, the first five calls return `None` and the sixth returns
the decode result of the index-ordered concatenation - so the outcome
does not depend on the order of the calls. -/
theorem c7_reassembler_complete_iff :
    (∀ (st : LICHReassembler.State) (frag : List Nat) (idx : Nat),
      st.length = 6 → frag.length = 5 → idx < 6 →
      (LICHReassembler.add_fragment st frag idx).2 = st.set idx (some frag) ∧
      (∀ lsf, (LICHReassembler.add_fragment st frag idx).1 = .ok (some lsf) ↔
        ((st.set idx (some frag)).all Option.isSome = true ∧
          LSF.decode (LICHReassembler.joinFragments (st.set idx (some frag))) = .ok lsf)) ∧
      ((LICHReassembler.add_fragment st frag idx).1 = .ok none ↔
        (st.set idx (some frag)).all Option.isSome = false) ∧
      ((LICHReassembler.add_fragment st frag idx).1 = .error .fragmentError ↔
        ((st.set idx (some frag)).all Option.isSome = true ∧
          ∀ lsf, LSF.decode (LICHReassembler.joinFragments (st.set idx (some frag))) ≠
            .ok lsf))) ∧
    (∀ (f : Fin 6 → List Nat), (∀ i, (f i).length = 5) →
      ∀ p : List (Fin 6), p.Perm LICHReassembler.idxList →
      LICHReassembler.runAdds f p LICHReassembler.init =
        (List.replicate 5 (.ok none) ++ [LICHReassembler.lichResult f],
         LICHReassembler.stOf f (fun _ => true))) := by
  constructor
  · intro st frag idx _hst6 hfrag hidx
    unfold LICHReassembler.add_fragment
    rw [if_neg (by simp [hfrag, M17Config.LSF_FRAGMENT_LENGTH_BYTES]),
      if_neg (by simp [M17Config.NUM_LICH_FRAGMENTS, hidx])]
    dsimp only
    by_cases hall : (st.set idx (some frag)).all Option.isSome
    · rw [if_pos hall]
      cases hdec : LSF.decode (LICHReassembler.joinFragments (st.set idx (some frag))) with
      | ok lsf0 =>
        refine ⟨rfl, fun lsf => ?_, by simp [hall], ?_⟩
        · constructor
          · intro h
            have h2 : Except.ok (some lsf0) = Except.ok (some lsf) := h
            injection h2 with h3
            injection h3 with h4
            exact ⟨hall, by rw [h4]⟩
          · rintro ⟨-, h⟩
            injection h with h2
            subst h2
            rfl
        · constructor
          · intro h
            exact absurd h (by simp)
          · rintro ⟨-, hno⟩
            exact absurd rfl (hno lsf0)
      | error e =>
        refine ⟨rfl, fun lsf => ?_, by simp [hall], ?_⟩
        · constructor
          · intro h
            exact absurd h (by simp)
          · rintro ⟨-, h⟩
            exact absurd h (by simp)
        · constructor
          · intro _
            exact ⟨hall, fun lsf h => absurd h (by simp)⟩
          · intro _
            rfl
    · rw [if_neg hall]
      have hfalse : (st.set idx (some frag)).all Option.isSome = false := by
        revert hall
        cases (st.set idx (some frag)).all Option.isSome <;> simp
      refine ⟨rfl, fun lsf => ?_, by simp [hfalse], ?_⟩
      · constructor
        · intro h
          exact absurd h (by simp)
        · rintro ⟨h, -⟩
          exact absurd h hall
      · constructor
        · intro h
          exact absurd h (by simp)
        · rintro ⟨h, -⟩
          exact absurd h hall
  · intro f hf p hp
    have hnd : p.Nodup := hp.nodup_iff.mpr (by decide)
    have hlen : p.length = 6 := by
      rw [hp.length_eq]
      decide
    have hne : p ≠ [] := by
      intro h
      rw [h] at hlen
      simp at hlen
    have hjall : ∀ j : Fin 6, j ∈ LICHReassembler.idxList := by decide
    have hcov : ∀ j, (fun _ : Fin 6 => false) j = true ∨ j ∈ p := fun j =>
      Or.inr (hp.mem_iff.mpr (hjall j))
    have h := LICHReassembler.runAdds_spec f hf p (fun _ => false) hnd (by simp) hcov
    rw [LICHReassembler.stOf_false] at h
    rw [h, if_neg hne, hlen]
    rw [Prod.mk.injEq]
    refine ⟨rfl, LICHReassembler.stOf_congr f ?_⟩
    intro j
    simp [hp.mem_iff.mpr (hjall j)]

/-- 28 bytes of LSF content (callsigns `AB`/`CD`, type byte 5, CAN 1,
13 zero bytes) used to build a decodable 30-byte concatenation. -/
def c7pre : List Nat :=
  LSF.callsign6 [65, 66] ++ LSF.callsign6 [67, 68] ++ [5] ++ [0, 1] ++ List.replicate 13 0

/-- The 30-byte LICH concatenation: content plus its 16-bit digest. -/
def c7B : List Nat := c7pre ++ toBytesBE2 (crc32 c7pre &&& 0xFFFF)

/-- The six 5-byte fragments of `c7B`. -/
def fW : Fin 6 → List Nat := fun i => pySlice c7B (i.val * 5) (i.val * 5 + 5)

/-- The LSF that `LSF.decode` recovers from `c7B` (its nonce picks up
the 13 zero bytes and the first CRC byte, since the source reads the
nonce from bytes `[15..29)`). -/
def lsfW : LSF :=
  ⟨[65, 66], [67, 68], 1, .STREAM, .VOICE, .NONE, .TEXT,
    List.replicate 13 0 ++ [(crc32 c7pre &&& 0xFFFF) / 256]⟩

/-- Witness for C7: the fragments of `c7B` added in order
3,1,4,0,5,2 give five `None` results and then the originating LSF,
and a single fresh `add_fragment` call returns `None`. -/
theorem c7_reassembler_complete_iff_witness :
    (∀ i : Fin 6, (fW i).length = 5) ∧
    ([3, 1, 4, 0, 5, 2] : List (Fin 6)).Perm LICHReassembler.idxList ∧
    LICHReassembler.runAdds fW [3, 1, 4, 0, 5, 2] LICHReassembler.init =
      (List.replicate 5 (.ok none) ++ [.ok (some lsfW)],
       LICHReassembler.stOf fW (fun _ => true)) ∧
    (LICHReassembler.init : LICHReassembler.State).length = 6 ∧
    (LICHReassembler.add_fragment LICHReassembler.init (List.replicate 5 0) 0).1 =
      .ok none := by
  refine ⟨by decide, by decide, ?_, by decide, ?_⟩
  · rw [c7_reassembler_complete_iff.2 fW (by decide) [3, 1, 4, 0, 5, 2] (by decide)]
    decide
  · exact ((c7_reassembler_complete_iff.1 LICHReassembler.init (List.replicate 5 0) 0
      (by decide) (by decide) (by decide)).2.2.1).mpr (by decide)

/-- Controller in `PROCESS` with an expired RF deadline and a
connected network. -/
def c8ctrl : M17Control :=
  { ctrlBase with rf_state := .PROCESS, rf_timeout := 1, network := some true }

/-- Witness for C8: at time 2 (past the deadline 1) the clock call
returns the RF side to `NONE`, resets the reassembler and forwards
one EOT; a clock call with the RF side at `NONE` forwards nothing. -/
theorem c8_watchdog_eot_once_witness :
    c8ctrl.rf_state = .PROCESS ∧ c8ctrl.rf_timeout ≤ (2 : ℚ) ∧
    ((c8ctrl.clock 2 100).1.rf_state = .NONE ∧
     (c8ctrl.clock 2 100).1.rf_lich = LICHReassembler.init ∧
     (c8ctrl.clock 2 100).2 =
       (if c8ctrl.networkConnected then [M17Config.EOT_SYNC] else [])) ∧
    ctrlBase.rf_state = .NONE ∧ (ctrlBase.clock 3 100).2 = [] :=
  ⟨by decide, by decide,
    c8_watchdog_eot_once.1 c8ctrl 2 100 (by decide) (by decide),
    by decide,
    c8_watchdog_eot_once.2 ctrlBase 3 100 (by decide)⟩
